import Mathlib

set_option maxHeartbeats 1000000
set_option autoImplicit false

/-!
Shallow embedding of `src/client/src/client.rs` (tonlib-rs connection pool):
the retry loop (`retrying_invoke` via tokio_retry's `RetryIf::spawn`), failure
classification (`maybe_error_code`, `retry_condition`), the checkpoint patcher
(`patch_init_block`), pool construction (`TonClient::new`) with per-slot
keystore directories, random slot selection (`random_item`) and per-slot lazy
connection establishment (`PoolConnection::get_connection`).

Effects are made explicit: the filesystem is a directory list threaded through
construction, randomness and the network are inputs, async suspension is
dropped (the claims are about sequential data flow), and log output is
returned as a list of messages.
-/

/-- Check to perform upon connection (`ConnectionCheck` in client.rs). -/
inductive ConnectionCheck where
  | none
  | health
  | archive
deriving DecidableEq, Repr

/-- A connection handle (`TonConnection`); cloning returns the same handle,
so it is modelled as plain data carrying its debug tag. -/
structure TonConnection where
  tag : String
deriving DecidableEq, Repr

/-- The liveness watcher (`std::thread::JoinHandle<()>`), observed only
through `is_finished`. -/
structure JoinHandle where
  finished : Bool
deriving DecidableEq, Repr

/-- An opaque successful call result (`TonResult`); its structure is
irrelevant to the pool logic. -/
structure TonResult where
  out : String
deriving DecidableEq, Repr

/-- Modelled from the spec: `TonClientError` lives in `error.rs`, outside
src/. The variants are those used by client.rs: `TonlibError` is a structured
remote failure carrying a numeric status code (the spec's
`TransientRemoteError`/`OtherRemoteError` classes), `InternalError` the
catch-all message error, and `IoError` the conversion of a filesystem error
(the spec's `FilesystemError`). -/
inductive TonClientError where
  | tonlibError (method : String) (code : Int) (message : String)
  | internalError (message : String)
  | ioError (message : String)
deriving DecidableEq, Repr

/-- Modelled from the spec: the parsed configuration document (`TonConfig`,
outside src/), reduced to the fields the patcher touches: the bootstrap node
list and the embedded init-block checkpoint. -/
structure TonConfig where
  liteservers : List String
  init_block_seqno : Int
  init_block_ident : String
deriving DecidableEq, Repr

/-- A checkpoint (`BlockIdExt`-like): sequence number plus block identifier. -/
structure BlockIdExt where
  seqno : Int
  ident : String
deriving DecidableEq, Repr

/-- `TonConfig::get_init_block_seqno` (outside src/; modelled from the spec's
config accessor `get_checkpoint`). -/
def TonConfig.get_init_block_seqno (c : TonConfig) : Int :=
  c.init_block_seqno

/-- `TonConfig::set_init_block` (outside src/; modelled from the spec's
config accessor `set_checkpoint`): rewrite the checkpoint fields. -/
def TonConfig.set_init_block (c : TonConfig) (b : BlockIdExt) : TonConfig :=
  { c with init_block_seqno := b.seqno, init_block_ident := b.ident }

/-- Connection parameters (`TonConnectionParams`, defined outside src/;
modelled from the spec's §3 ConnectionParams): configuration document
(kept in parsed form since document parsing is out of scope), optional
keystore root, and the checkpoint-refresh flag. -/
structure TonConnectionParams where
  config : TonConfig
  keystore_dir : Option String
  update_init_block : Bool
deriving DecidableEq, Repr

/-- Retry policy (`RetryStrategy`, defined outside src/; modelled from the
spec's `{interval, max_retries}` and the uses
`retry_strategy.interval_ms` / `retry_strategy.max_retries` in client.rs). -/
structure RetryStrategy where
  interval_ms : Nat
  max_retries : Nat
deriving DecidableEq, Repr

/-- One pool slot (`PoolConnection`): params, opaque callback, the guarded
optional (handle, watcher) pair, and the check mode. The mutex guard is
dropped: claims about this slot concern its sequential state transition. -/
structure PoolConnection where
  params : TonConnectionParams
  callback : String
  conn : Option (TonConnection × JoinHandle)
  connection_check : ConnectionCheck
deriving DecidableEq, Repr

/-- The pool (`TonClient`/`Inner`; the `Arc` indirection is dropped). -/
structure TonClient where
  retry_strategy : RetryStrategy
  connections : List PoolConnection
deriving DecidableEq, Repr

/-- `maybe_error_code` in client.rs: extract the embedded numeric code of a
structured remote failure, if any. -/
def maybe_error_code : TonClientError → Option Int
  | .tonlibError _ code _ => some code
  | _ => none

/-- `retry_condition` in client.rs: retry exactly on code 500. -/
def retry_condition (error : TonClientError) : Bool :=
  match maybe_error_code error with
  | some code => code == 500
  | Option.none => false

/-- `FixedInterval::from_millis(interval).take(max_retries)`: the delay
sequence handed to the retry loop — `max_retries` equal waits. -/
def fixed_interval_take (interval_ms : Nat) (max_retries : Nat) : List Nat :=
  List.replicate max_retries interval_ms

/-- `RetryIf::spawn(strategy, action, condition)` from tokio_retry, the loop
driving `retrying_invoke`: run the action; on an error satisfying the
condition, consume the next delay from the strategy and re-run, otherwise
(or when the strategy is exhausted) return the error. `attempts k` abstracts
the k-th execution of the action; the result is paired with the total number
of attempts performed and the list of waits slept between attempts. -/
def retry_if_spawn {α : Type} (strategy : List Nat)
    (attempts : Nat → Except TonClientError α)
    (condition : TonClientError → Bool) (k : Nat) :
    Except TonClientError α × Nat × List Nat :=
  match attempts k with
  | .ok v => (.ok v, k + 1, [])
  | .error e =>
    if condition e then
      match strategy with
      | [] => (.error e, k + 1, [])
      | d :: rest =>
        let r := retry_if_spawn rest attempts condition (k + 1)
        (r.1, r.2.1, d :: r.2.2)
    else (.error e, k + 1, [])

/-- `TonClient::retrying_invoke`: retry `do_invoke` with a fixed-interval,
`max_retries`-bounded strategy under `retry_condition`. Successive
`do_invoke` executions are abstracted by `attempts`. -/
def TonClient.retrying_invoke (c : TonClient)
    (attempts : Nat → Except TonClientError (TonConnection × TonResult)) :
    Except TonClientError (TonConnection × TonResult) × Nat × List Nat :=
  retry_if_spawn
    (fixed_interval_take c.retry_strategy.interval_ms c.retry_strategy.max_retries)
    attempts retry_condition 0

/-- The connection factory (`TonConnection::connect_joinable` /
`connect_healthy` / `connect_archive`, outside src/; modelled from the spec's
collaborator interface `establish(params, callback, mode)`): one entry point
per ConnectionCheck mode, each either failing or yielding a handle plus its
liveness watcher. -/
structure ConnectOps where
  connect_joinable : TonConnectionParams → String →
    Except TonClientError (TonConnection × JoinHandle)
  connect_healthy : TonConnectionParams → String →
    Except TonClientError (TonConnection × JoinHandle)
  connect_archive : TonConnectionParams → String →
    Except TonClientError (TonConnection × JoinHandle)

/-- The `match self.connection_check` dispatch inside
`PoolConnection::get_connection`. -/
def establish_for (ops : ConnectOps) (check : ConnectionCheck)
    (params : TonConnectionParams) (callback : String) :
    Except TonClientError (TonConnection × JoinHandle) :=
  match check with
  | .none => ops.connect_joinable params callback
  | .health => ops.connect_healthy params callback
  | .archive => ops.connect_archive params callback

/-- `PoolConnection::get_connection`: under the slot's guard, either return
the stored handle (warning in the log output when its watcher is finished),
or establish per the check mode, store (handle, watcher) on success, and
return the handle; on failure return the error with the slot unchanged.
Result: (call result, slot state after the call, log messages). -/
def PoolConnection.get_connection (ops : ConnectOps) (slot : PoolConnection) :
    Except TonClientError TonConnection × PoolConnection × List String :=
  match slot.conn with
  | some (conn, join_handle) =>
    if join_handle.finished then
      (.ok conn, slot, ["Returning dead connection: " ++ conn.tag])
    else
      (.ok conn, slot, [])
  | Option.none =>
    match establish_for ops slot.connection_check slot.params slot.callback with
    | .error e => (.error e, slot, [])
    | .ok (conn, jh) => (.ok conn, { slot with conn := some (conn, jh) }, [])

/-- `patch_init_block` in client.rs. The network query
`get_recent_init_block(&ton_config.liteservers)` (outside src/) is abstracted
by its result `fetched`; document parse/serialize are identity on the parsed
form (see `TonConnectionParams.config`). If no bootstrap node answered, fail
with the manual-update guidance; otherwise rewrite the embedded checkpoint
exactly when the fetched sequence number is strictly newer. -/
def patch_init_block (fetched : Option BlockIdExt)
    (params : TonConnectionParams) :
    Except TonClientError TonConnectionParams :=
  let ton_config := params.config
  match fetched with
  | Option.none =>
    .error (.internalError
      "Failed to update init_block: update it manually in network_config.json (https://docs.ton.org/develop/howto/network-configs)")
  | some recent_init_block =>
    let old_seqno := ton_config.get_init_block_seqno
    let patched_config :=
      if old_seqno < recent_init_block.seqno then
        ton_config.set_init_block recent_init_block
      else
        ton_config
    .ok { params with config := patched_config }

/-- Fuel-driven core of the decimal formatter; any fuel above the number
itself is enough, so the fuel never runs out in `dec_digits`. -/
def dec_digits_aux : Nat → Nat → List Nat
  | 0, _ => []
  | fuel + 1, n =>
    if n < 10 then [n]
    else dec_digits_aux fuel (n / 10) ++ [n % 10]

/-- The decimal digits of a natural number, most significant first —
the digit sequence produced by Rust's `format!("{}", i)`. -/
def dec_digits (n : Nat) : List Nat :=
  dec_digits_aux (n + 1) n

/-- The character of one decimal digit. -/
def dec_digit_char (d : Nat) : Char :=
  Char.ofNat (48 + d)

/-- Rust's `format!("{}", i)` for a `usize` index: its decimal notation. -/
def nat_to_string (n : Nat) : String :=
  String.mk ((dec_digits n).map dec_digit_char)

/-- `Path::new(dir).join(component)` followed by
`into_os_string().into_string()`: POSIX path join (separator normalization
for roots already ending in the separator is not modelled; the joined
component here is always a decimal numeral, never absolute). -/
def path_join (dir : String) (component : String) : String :=
  dir ++ "/" ++ component

/-- The filesystem environment: which paths `fs::create_dir_all` fails on,
and which paths fail OsString-to-String conversion. Fixed for a run; the
mutable filesystem state is the directory list threaded separately. -/
structure FsEnv where
  createFails : String → Bool
  encodeFails : String → Bool

/-- `fs::create_dir_all`: on success the directory exists afterwards;
creation is idempotent — a pre-existing directory is reused, never cleared,
and no directory is ever removed. -/
def create_dir_all (env : FsEnv) (dirs : List String) (path : String) :
    Except TonClientError Unit × List String :=
  if env.createFails path then
    (.error (.ioError ("cannot create directory " ++ path)), dirs)
  else
    (.ok (), if path ∈ dirs then dirs else dirs ++ [path])

/-- One iteration of the construction loop in `TonClient::new`: clone the
patched params and, when a keystore root is configured, create the per-slot
directory `root/i`, fail on an unencodable path, and point the clone's
keystore at it. -/
def mk_slot_params (env : FsEnv) (dirs : List String)
    (patched : TonConnectionParams) (i : Nat) :
    Except TonClientError TonConnectionParams × List String :=
  match patched.keystore_dir with
  | Option.none => (.ok patched, dirs)
  | some dir =>
    let keystore_dir := path_join dir (nat_to_string i)
    match create_dir_all env dirs keystore_dir with
    | (.error e, dirs2) => (.error e, dirs2)
    | (.ok _, dirs2) =>
      if env.encodeFails keystore_dir then
        (.error (.internalError "Error constructing keystore path"), dirs2)
      else
        (.ok { patched with keystore_dir := some keystore_dir }, dirs2)

/-- The `for i in 0..pool_size` loop of `TonClient::new` over the list of
slot indices: build one `PoolConnection` per index, its guarded connection
starting empty; the first failure aborts, keeping the filesystem state
reached so far. -/
def build_slots (env : FsEnv) (patched : TonConnectionParams)
    (callback : String) (check : ConnectionCheck) :
    List Nat → List String →
    Except TonClientError (List PoolConnection) × List String
  | [], dirs => (.ok [], dirs)
  | i :: rest, dirs =>
    match mk_slot_params env dirs patched i with
    | (.error e, dirs2) => (.error e, dirs2)
    | (.ok conn_params, dirs2) =>
      match build_slots env patched callback check rest dirs2 with
      | (.error e, dirs3) => (.error e, dirs3)
      | (.ok slots, dirs3) =>
        (.ok ({ params := conn_params, callback := callback,
                conn := Option.none, connection_check := check } :: slots),
         dirs3)

/-- `TonClient::new`: optionally run the checkpoint patcher (its network
fetch abstracted by `fetched`), then build `pool_size` slots, each
provisioning its keystore subdirectory. Returns the constructed pool (or the
aborting error) together with the filesystem state after the run. -/
def TonClient.new (fetched : Option BlockIdExt) (env : FsEnv)
    (dirs : List String) (pool_size : Nat) (params : TonConnectionParams)
    (retry_strategy : RetryStrategy) (callback : String)
    (connection_check : ConnectionCheck) :
    Except TonClientError TonClient × List String :=
  let patchedRes :=
    if params.update_init_block then patch_init_block fetched params
    else .ok params
  match patchedRes with
  | .error e => (.error e, dirs)
  | .ok patched =>
    match build_slots env patched callback connection_check
        (List.range pool_size) dirs with
    | (.error e, dirs2) => (.error e, dirs2)
    | (.ok connections, dirs2) =>
      (.ok { retry_strategy := retry_strategy, connections := connections },
       dirs2)

/-- `rng.gen_range(0..n)` from the rand crate: an arbitrary draw `rng`
reduced into the range; the draw is in `[0, n)` whenever the range is
non-empty, and `gen_range` panics on the empty range — modelled as `none`. -/
def gen_range (rng : Nat) (n : Nat) : Option Nat :=
  if n = 0 then Option.none else some (rng % n)

/-- `TonClient::random_item`: index the slot list at a uniformly drawn
index. `none` models the `gen_range` panic on an empty pool. -/
def TonClient.random_item (c : TonClient) (rng : Nat) :
    Option PoolConnection :=
  (gen_range rng c.connections.length).bind fun i => c.connections[i]?

/-- `TonClient::get_connection` (the `TonClientInterface` impl): select a
random slot and acquire its connection. `none` models the selection panic on
an empty pool; slot-state writeback is kept by the slot-level theorems. -/
def TonClient.get_connection (c : TonClient) (rng : Nat) (ops : ConnectOps) :
    Option (Except TonClientError TonConnection) :=
  (c.random_item rng).map fun item => (item.get_connection ops).1

/-- `TonClient::do_invoke`: one attempt — select a random slot, acquire its
connection, dispatch the call on it (`conn.invoke`, abstracted by
`dispatch`), pairing the connection with the result on success. `none`
models the selection panic on an empty pool. -/
def TonClient.do_invoke (c : TonClient) (rng : Nat) (ops : ConnectOps)
    (dispatch : TonConnection → Except TonClientError TonResult) :
    Option (Except TonClientError (TonConnection × TonResult)) :=
  (c.random_item rng).map fun item =>
    match (item.get_connection ops).1 with
    | .error e => .error e
    | .ok conn =>
      match dispatch conn with
      | .ok result => .ok (conn, result)
      | .error e => .error e

/-- Decode a most-significant-first decimal digit list. -/
def undigits (ds : List Nat) : Nat :=
  ds.foldl (fun a d => 10 * a + d) 0

/-- A connection factory that always succeeds (concrete test fixture). -/
def opsW8 : ConnectOps :=
  ⟨fun _ _ => .ok (⟨"t"⟩, ⟨false⟩), fun _ _ => .ok (⟨"t"⟩, ⟨false⟩),
   fun _ _ => .ok (⟨"t"⟩, ⟨false⟩)⟩

/-- A concrete two-slot pool (test fixture). -/
def clientW8 : TonClient :=
  { retry_strategy := ⟨7, 2⟩,
    connections :=
      [⟨⟨⟨[], 0, "i"⟩, Option.none, false⟩, "cb", Option.none,
         ConnectionCheck.none⟩,
       ⟨⟨⟨[], 0, "i"⟩, Option.none, false⟩, "cb",
         some (⟨"c1"⟩, ⟨false⟩), ConnectionCheck.none⟩] }

theorem undigits_append_digit (ds : List Nat) (d : Nat) :
    undigits (ds ++ [d]) = 10 * undigits ds + d := by
  simp [undigits, List.foldl_append]

theorem dec_digits_aux_irrel :
    ∀ (f1 : Nat), ∀ (f2 n : Nat), n < f1 → n < f2 →
      dec_digits_aux f1 n = dec_digits_aux f2 n := by
  intro f1
  induction f1 with
  | zero => intro f2 n h1 _; omega
  | succ f1 ih =>
    intro f2 n h1 h2
    cases f2 with
    | zero => omega
    | succ f2 =>
      unfold dec_digits_aux
      split
      · rfl
      · rename_i h
        rw [ih f2 (n / 10) (by omega) (by omega)]

theorem dec_digits_eq (n : Nat) :
    dec_digits n = if n < 10 then [n]
      else dec_digits (n / 10) ++ [n % 10] := by
  show dec_digits_aux (n + 1) n = _
  rw [dec_digits_aux]
  split
  · rfl
  · rename_i h
    show dec_digits_aux n (n / 10) ++ [n % 10] =
      dec_digits_aux (n / 10 + 1) (n / 10) ++ [n % 10]
    rw [dec_digits_aux_irrel n (n / 10 + 1) (n / 10) (by omega) (by omega)]

theorem undigits_dec_digits (n : Nat) : undigits (dec_digits n) = n := by
  induction n using Nat.strong_induction_on with
  | _ n ih =>
    rw [dec_digits_eq]
    split
    · simp [undigits]
    · rename_i h
      rw [undigits_append_digit, ih (n / 10) (Nat.div_lt_self (by omega) (by omega))]
      omega

theorem dec_digits_lt_ten (n : Nat) : ∀ d ∈ dec_digits n, d < 10 := by
  induction n using Nat.strong_induction_on with
  | _ n ih =>
    rw [dec_digits_eq]
    split
    · rename_i h
      intro d hd
      simp only [List.mem_singleton] at hd
      omega
    · rename_i h
      intro d hd
      rw [List.mem_append, List.mem_singleton] at hd
      rcases hd with hd | hd
      · exact ih (n / 10) (Nat.div_lt_self (by omega) (by omega)) d hd
      · omega

theorem dec_digits_injective {m n : Nat} (h : dec_digits m = dec_digits n) :
    m = n := by
  have hm := undigits_dec_digits m
  rw [h, undigits_dec_digits] at hm
  exact hm.symm

theorem dec_digit_char_inj_lt :
    ∀ a, a < 10 → ∀ b, b < 10 → dec_digit_char a = dec_digit_char b →
      a = b := by decide

theorem map_dec_digit_char_inj :
    ∀ xs ys : List Nat, (∀ d ∈ xs, d < 10) → (∀ d ∈ ys, d < 10) →
      xs.map dec_digit_char = ys.map dec_digit_char → xs = ys := by
  intro xs
  induction xs with
  | nil =>
    intro ys _ _ h
    cases ys with
    | nil => rfl
    | cons b bs => simp at h
  | cons a as ih =>
    intro ys hxs hys h
    cases ys with
    | nil => simp at h
    | cons b bs =>
      simp only [List.map_cons, List.cons.injEq] at h
      have ha : a < 10 := hxs a (by simp)
      have hb : b < 10 := hys b (by simp)
      have hab : a = b := dec_digit_char_inj_lt a ha b hb h.1
      subst hab
      have htl : as = bs :=
        ih bs (fun d hd => hxs d (by simp [hd]))
          (fun d hd => hys d (by simp [hd])) h.2
      rw [htl]

theorem nat_to_string_injective {m n : Nat}
    (h : nat_to_string m = nat_to_string n) : m = n := by
  unfold nat_to_string at h
  have hdata :
      (dec_digits m).map dec_digit_char = (dec_digits n).map dec_digit_char := by
    injection h
  exact dec_digits_injective
    (map_dec_digit_char_inj _ _ (dec_digits_lt_ten m) (dec_digits_lt_ten n)
      hdata)

theorem path_join_right_injective {R s t : String}
    (h : path_join R s = path_join R t) : s = t := by
  unfold path_join at h
  have h2 := congrArg String.data h
  simp only [String.data_append] at h2
  have hst : s.data = t.data := by
    have h3 : R.data ++ ("/".data ++ s.data) = R.data ++ ("/".data ++ t.data) := by
      simpa [List.append_assoc] using h2
    exact List.append_cancel_left (List.append_cancel_left h3)
  cases s
  cases t
  exact congrArg String.mk (by simpa using hst)

theorem slot_paths_disjoint (R : String) {i j : Nat} (hij : i ≠ j) :
    path_join R (nat_to_string i) ≠ path_join R (nat_to_string j) := fun h =>
  hij (nat_to_string_injective (path_join_right_injective h))

theorem retry_if_spawn_all_fail {α : Type} (cond : TonClientError → Bool)
    (attempts : Nat → Except TonClientError α)
    (h : ∀ j, ∃ e, attempts j = .error e ∧ cond e = true) :
    ∀ (strategy : List Nat) (k : Nat),
      retry_if_spawn strategy attempts cond k =
        (attempts (k + strategy.length), k + strategy.length + 1, strategy) := by
  intro strategy
  induction strategy with
  | nil =>
    intro k
    obtain ⟨e, he, hc⟩ := h k
    simp [retry_if_spawn, he, hc]
  | cons d rest ih =>
    intro k
    obtain ⟨e, he, hc⟩ := h k
    have harg : k + 1 + rest.length = k + (rest.length + 1) := by omega
    simp only [retry_if_spawn, he, hc, if_true, ih (k + 1), List.length_cons,
      harg]

theorem create_dir_all_sub (env : FsEnv) (dirs : List String) (p : String) :
    dirs ⊆ (create_dir_all env dirs p).2 := by
  unfold create_dir_all
  split
  · exact List.Subset.refl dirs
  · simp only
    split
    · exact List.Subset.refl dirs
    · exact List.subset_append_left dirs [p]

theorem create_dir_all_mem (env : FsEnv) (dirs : List String) (p : String)
    (h : env.createFails p = false) : p ∈ (create_dir_all env dirs p).2 := by
  unfold create_dir_all
  rw [h]
  simp only [Bool.false_eq_true, if_false]
  split
  · assumption
  · exact List.mem_append_right dirs (by simp)

theorem mk_slot_params_sub (env : FsEnv) (dirs : List String)
    (patched : TonConnectionParams) (i : Nat) :
    dirs ⊆ (mk_slot_params env dirs patched i).2 := by
  unfold mk_slot_params
  cases patched.keystore_dir with
  | none => exact List.Subset.refl dirs
  | some dir =>
    simp only
    have hsub := create_dir_all_sub env dirs (path_join dir (nat_to_string i))
    rcases hcd : create_dir_all env dirs (path_join dir (nat_to_string i)) with
      ⟨res, dirs2⟩
    rw [hcd] at hsub
    cases res with
    | error e => exact hsub
    | ok u =>
      simp only
      split
      · exact hsub
      · exact hsub

theorem build_slots_sub (env : FsEnv) (patched : TonConnectionParams)
    (callback : String) (check : ConnectionCheck) :
    ∀ (l : List Nat) (dirs : List String),
      dirs ⊆ (build_slots env patched callback check l dirs).2 := by
  intro l
  induction l with
  | nil => intro dirs; exact List.Subset.refl dirs
  | cons i rest ih =>
    intro dirs
    unfold build_slots
    have hsub := mk_slot_params_sub env dirs patched i
    rcases hmk : mk_slot_params env dirs patched i with ⟨res, dirs2⟩
    rw [hmk] at hsub
    cases res with
    | error e => exact hsub
    | ok conn_params =>
      simp only
      have hsub2 := ih dirs2
      rcases hbs : build_slots env patched callback check rest dirs2 with
        ⟨res2, dirs3⟩
      rw [hbs] at hsub2
      cases res2 with
      | error e => exact hsub.trans hsub2
      | ok slots => exact hsub.trans hsub2

theorem mk_slot_params_ok_some_root (env : FsEnv) (dirs : List String)
    (patched : TonConnectionParams) (i : Nat) (R : String)
    (hroot : patched.keystore_dir = some R) (cp : TonConnectionParams)
    (dirsA : List String)
    (h : mk_slot_params env dirs patched i = (.ok cp, dirsA)) :
    cp = { patched with keystore_dir := some (path_join R (nat_to_string i)) } := by
  unfold mk_slot_params at h
  rw [hroot] at h
  simp only at h
  rcases hcd : create_dir_all env dirs (path_join R (nat_to_string i)) with
    ⟨cres, dirsC⟩
  rw [hcd] at h
  cases cres with
  | error e => simp at h
  | ok u =>
    simp only at h
    split at h
    · simp at h
    · simp only [Prod.mk.injEq, Except.ok.injEq] at h
      exact h.1.symm

theorem build_slots_ok_some_root (env : FsEnv) (patched : TonConnectionParams)
    (callback : String) (check : ConnectionCheck) (R : String)
    (hroot : patched.keystore_dir = some R) :
    ∀ (m k : Nat) (dirs : List String) (slots : List PoolConnection)
      (dirs2 : List String),
      build_slots env patched callback check (List.range' k m) dirs =
        (.ok slots, dirs2) →
      slots.length = m ∧
      ∀ j, j < m → slots[j]? = some
        { params :=
            { patched with keystore_dir := some (path_join R (nat_to_string (k + j))) },
          callback := callback, conn := Option.none,
          connection_check := check } := by
  intro m
  induction m with
  | zero =>
    intro k dirs slots dirs2 h
    simp only [List.range'] at h
    unfold build_slots at h
    have hs : slots = [] := by
      have := (Prod.mk.injEq _ _ _ _ ▸ h).1
      simpa using this.symm
    subst hs
    exact ⟨rfl, fun j hj => absurd hj (Nat.not_lt_zero j)⟩
  | succ m ih =>
    intro k dirs slots dirs2 h
    rw [List.range'_succ] at h
    unfold build_slots at h
    rcases hmk : mk_slot_params env dirs patched k with ⟨res, dirsA⟩
    rw [hmk] at h
    cases res with
    | error e => simp at h
    | ok cp =>
      simp only at h
      rcases hbs : build_slots env patched callback check
          (List.range' (k + 1) m) dirsA with ⟨res2, dirsB⟩
      rw [hbs] at h
      cases res2 with
      | error e => simp at h
      | ok slots' =>
        simp only [Prod.mk.injEq, Except.ok.injEq] at h
        obtain ⟨hslots, hdirs⟩ := h
        obtain ⟨hlen, hj⟩ := ih (k + 1) dirsA slots' dirsB hbs
        have hcp := mk_slot_params_ok_some_root env dirs patched k R hroot cp
          dirsA hmk
        subst hcp
        refine ⟨by rw [← hslots]; simp [hlen], ?_⟩
        intro j hjm
        rw [← hslots]
        cases j with
        | zero => simp
        | succ j' =>
          have hj' := hj j' (by omega)
          have harg : k + 1 + j' = k + (j' + 1) := by omega
          rw [harg] at hj'
          simpa using hj'

theorem build_slots_ok_no_root (env : FsEnv) (patched : TonConnectionParams)
    (callback : String) (check : ConnectionCheck)
    (hroot : patched.keystore_dir = Option.none) :
    ∀ (l : List Nat) (dirs : List String),
      build_slots env patched callback check l dirs =
        (.ok (l.map fun _ =>
          { params := patched, callback := callback, conn := Option.none,
            connection_check := check }), dirs) := by
  intro l
  induction l with
  | nil => intro dirs; rfl
  | cons i rest ih =>
    intro dirs
    unfold build_slots
    have hmk : mk_slot_params env dirs patched i = (.ok patched, dirs) := by
      unfold mk_slot_params
      rw [hroot]
    rw [hmk]
    simp only
    rw [ih dirs]
    simp

theorem build_slots_fail_at (env : FsEnv) (patched : TonConnectionParams)
    (callback : String) (check : ConnectionCheck) (R : String)
    (hroot : patched.keystore_dir = some R) :
    ∀ (i m k : Nat) (dirs : List String),
      i < m →
      (∀ j, j < i →
        env.createFails (path_join R (nat_to_string (k + j))) = false ∧
        env.encodeFails (path_join R (nat_to_string (k + j))) = false) →
      (env.createFails (path_join R (nat_to_string (k + i))) = true ∨
        (env.createFails (path_join R (nat_to_string (k + i))) = false ∧
         env.encodeFails (path_join R (nat_to_string (k + i))) = true)) →
      ∃ e dirs2,
        build_slots env patched callback check (List.range' k m) dirs =
          (.error e, dirs2) ∧
        ∀ j, j < i → path_join R (nat_to_string (k + j)) ∈ dirs2 := by
  intro i
  induction i with
  | zero =>
    intro m k dirs him hok hfail
    cases m with
    | zero => omega
    | succ m' =>
      simp only [Nat.add_zero] at hfail
      rw [List.range'_succ]
      rcases hfail with hcf | ⟨hcf, hef⟩
      · exact ⟨.ioError ("cannot create directory " ++
            path_join R (nat_to_string k)), dirs,
          by simp [build_slots, mk_slot_params, hroot, create_dir_all, hcf],
          fun j hj => absurd hj (Nat.not_lt_zero j)⟩
      · exact ⟨.internalError "Error constructing keystore path",
          if path_join R (nat_to_string k) ∈ dirs then dirs
            else dirs ++ [path_join R (nat_to_string k)],
          by simp [build_slots, mk_slot_params, hroot, create_dir_all, hcf,
            hef],
          fun j hj => absurd hj (Nat.not_lt_zero j)⟩
  | succ i ih =>
    intro m k dirs him hok hfail
    cases m with
    | zero => omega
    | succ m' =>
      rw [List.range'_succ]
      unfold build_slots
      have hok0 := hok 0 (Nat.succ_pos i)
      rw [Nat.add_zero] at hok0
      have hmk : mk_slot_params env dirs patched k =
          (.ok { patched with keystore_dir := some (path_join R (nat_to_string k)) },
           (create_dir_all env dirs (path_join R (nat_to_string k))).2) := by
        unfold mk_slot_params
        rw [hroot]
        rcases hcd : create_dir_all env dirs (path_join R (nat_to_string k)) with
          ⟨cres, dirsC⟩
        have : cres = .ok () := by
          unfold create_dir_all at hcd
          rw [hok0.1] at hcd
          simp only [Bool.false_eq_true, if_false, Prod.mk.injEq] at hcd
          exact hcd.1.symm
        subst this
        simp only [hok0.2, Bool.false_eq_true, if_false]
        rw [hcd]
      rw [hmk]
      simp only
      set dirsA := (create_dir_all env dirs (path_join R (nat_to_string k))).2
        with hdirsA
      have hokA : ∀ j, j < i →
          env.createFails (path_join R (nat_to_string (k + 1 + j))) = false ∧
          env.encodeFails (path_join R (nat_to_string (k + 1 + j))) = false := by
        intro j hj
        have harg : k + 1 + j = k + (j + 1) := by omega
        rw [harg]
        exact hok (j + 1) (by omega)
      have hfailA :
          env.createFails (path_join R (nat_to_string (k + 1 + i))) = true ∨
            (env.createFails (path_join R (nat_to_string (k + 1 + i))) = false ∧
             env.encodeFails (path_join R (nat_to_string (k + 1 + i))) = true) := by
        have harg : k + 1 + i = k + (i + 1) := by omega
        rw [harg]
        exact hfail
      obtain ⟨e, dirs2, heq, hmem⟩ := ih m' (k + 1) dirsA (by omega) hokA hfailA
      rw [heq]
      refine ⟨e, dirs2, rfl, ?_⟩
      intro j hj
      cases j with
      | zero =>
        rw [Nat.add_zero]
        have hmemA : path_join R (nat_to_string k) ∈ dirsA :=
          create_dir_all_mem env dirs (path_join R (nat_to_string k)) hok0.1
        have hsubA : dirsA ⊆ dirs2 := by
          have := build_slots_sub env patched callback check
            (List.range' (k + 1) m') dirsA
          rw [heq] at this
          exact this
        exact hsubA hmemA
      | succ j' =>
        have harg : k + (j' + 1) = k + 1 + j' := by omega
        rw [harg]
        exact hmem j' (by omega)

theorem patch_init_block_keystore (fetched : Option BlockIdExt)
    (params p2 : TonConnectionParams)
    (h : patch_init_block fetched params = .ok p2) :
    p2.keystore_dir = params.keystore_dir := by
  cases fetched with
  | none => simp [patch_init_block] at h
  | some b =>
    simp only [patch_init_block, Except.ok.injEq] at h
    rw [← h]

theorem patched_params_keystore (fetched : Option BlockIdExt)
    (params patched : TonConnectionParams)
    (h : (if params.update_init_block then patch_init_block fetched params
        else .ok params) = .ok patched) :
    patched.keystore_dir = params.keystore_dir := by
  split at h
  · exact patch_init_block_keystore fetched params patched h
  · simp only [Except.ok.injEq] at h
    rw [← h]

/-- C1 (retry bound): if every dispatch attempt of `retrying_invoke` fails
with an error satisfying `retry_condition` (the transient code), the loop
performs exactly `max_retries + 1` attempts total, sleeps exactly
`max_retries` waits all equal to `interval_ms` (fixed interval, no backoff
growth), and returns the last attempt's failure unchanged. -/
theorem retrying_invoke_retry_bound (c : TonClient)
    (attempts : Nat → Except TonClientError (TonConnection × TonResult))
    (h : ∀ j, ∃ e, attempts j = .error e ∧ retry_condition e = true) :
    c.retrying_invoke attempts =
      (attempts c.retry_strategy.max_retries,
       c.retry_strategy.max_retries + 1,
       List.replicate c.retry_strategy.max_retries
         c.retry_strategy.interval_ms) := by
  unfold TonClient.retrying_invoke fixed_interval_take
  rw [retry_if_spawn_all_fail retry_condition attempts h]
  simp

/-- Witness for C1: with `interval_ms = 7`, `max_retries = 2` and every
attempt failing with code 500, the call is attempted 3 times, waits [7, 7],
and returns that failure. -/
theorem retrying_invoke_retry_bound_witness :
    TonClient.retrying_invoke ⟨⟨7, 2⟩, []⟩
        (fun _ => .error (.tonlibError "m" 500 "busy")) =
      (.error (.tonlibError "m" 500 "busy"), 3, [7, 7]) :=
  retrying_invoke_retry_bound ⟨⟨7, 2⟩, []⟩
    (fun _ => .error (.tonlibError "m" 500 "busy"))
    (fun _ => ⟨.tonlibError "m" 500 "busy", rfl, rfl⟩)

/-- C2 (retry exclusivity): a failure is retried iff it is a structured
remote failure (`TonlibError`) carrying exactly code 500; any other failure
— internal/configuration errors, io errors, or a remote failure with a
different code — makes `retrying_invoke` return it after exactly one
attempt, with no waits. -/
theorem retry_condition_exclusive :
    (∀ e, retry_condition e = true ↔
      ∃ m msg, e = TonClientError.tonlibError m 500 msg) ∧
    (∀ (c : TonClient)
        (attempts : Nat → Except TonClientError (TonConnection × TonResult))
        (e : TonClientError), attempts 0 = .error e →
      retry_condition e = false →
      c.retrying_invoke attempts = (.error e, 1, [])) := by
  constructor
  · intro e
    cases e with
    | tonlibError m code msg =>
      simp [retry_condition, maybe_error_code]
    | internalError msg => simp [retry_condition, maybe_error_code]
    | ioError msg => simp [retry_condition, maybe_error_code]
  · intro c attempts e h0 hc
    unfold TonClient.retrying_invoke
    unfold retry_if_spawn
    rw [h0]
    simp [hc]

/-- Witness for C2: a configuration-class failure (`InternalError`) is not
retried and surfaces after exactly one attempt. -/
theorem retry_condition_exclusive_witness :
    TonClient.retrying_invoke ⟨⟨7, 2⟩, []⟩
        (fun _ => .error (.internalError "cfg")) =
      (.error (.internalError "cfg"), 1, []) :=
  retry_condition_exclusive.2 ⟨⟨7, 2⟩, []⟩
    (fun _ => .error (.internalError "cfg")) (.internalError "cfg") rfl rfl

/-- C3 (checkpoint monotonicity): with a fetched checkpoint `b`, the patcher
leaves the configuration unchanged when `b.seqno` is not strictly newer,
rewrites the checkpoint fields to `b` (so the embedded seqno becomes
`b.seqno`) when it is strictly newer, and in every successful case the
embedded sequence number never decreases. -/
theorem patch_init_block_monotonic (params : TonConnectionParams)
    (b : BlockIdExt) :
    (b.seqno ≤ params.config.init_block_seqno →
      patch_init_block (some b) params = .ok params) ∧
    (params.config.init_block_seqno < b.seqno →
      patch_init_block (some b) params =
        .ok { params with config := params.config.set_init_block b } ∧
      ({ params with
          config := params.config.set_init_block b }).config.init_block_seqno =
        b.seqno) ∧
    (∀ res, patch_init_block (some b) params = .ok res →
      params.config.init_block_seqno ≤ res.config.init_block_seqno) := by
  refine ⟨?_, ?_, ?_⟩
  · intro hle
    simp [patch_init_block, TonConfig.get_init_block_seqno, Int.not_lt.mpr hle]
  · intro hlt
    exact ⟨by simp [patch_init_block, TonConfig.get_init_block_seqno, hlt],
      rfl⟩
  · intro res hres
    simp only [patch_init_block, TonConfig.get_init_block_seqno,
      Except.ok.injEq] at hres
    by_cases hlt : params.config.init_block_seqno < b.seqno
    · rw [if_pos hlt] at hres
      rw [← hres]
      exact le_of_lt hlt
    · rw [if_neg hlt] at hres
      rw [← hres]

/-- Witness for C3: embedded seqno 100 patched with fetched seqno 80 is left
unchanged; patched with fetched seqno 150 it is rewritten to 150. -/
theorem patch_init_block_monotonic_witness :
    patch_init_block (some ⟨80, "b80"⟩)
        ⟨⟨[], 100, "i"⟩, Option.none, true⟩ =
      .ok ⟨⟨[], 100, "i"⟩, Option.none, true⟩ ∧
    patch_init_block (some ⟨150, "b150"⟩)
        ⟨⟨[], 100, "i"⟩, Option.none, true⟩ =
      .ok ⟨⟨[], 150, "b150"⟩, Option.none, true⟩ := by
  constructor
  · exact (patch_init_block_monotonic ⟨⟨[], 100, "i"⟩, Option.none, true⟩
      ⟨80, "b80"⟩).1 (by decide)
  · exact ((patch_init_block_monotonic ⟨⟨[], 100, "i"⟩, Option.none, true⟩
      ⟨150, "b150"⟩).2.1 (by decide)).1

/-- C4 (checkpoint bootstrap failure): when checkpoint refresh is requested
and the bootstrap lookup yields no checkpoint, `TonClient::new` aborts with
the fatal checkpoint-unavailable error carrying the manual-update guidance,
returns no pool, and leaves the filesystem untouched — no slots are
created. -/
theorem new_checkpoint_unavailable (fetched : Option BlockIdExt)
    (env : FsEnv) (dirs : List String) (pool_size : Nat)
    (params : TonConnectionParams) (rs : RetryStrategy) (cb : String)
    (check : ConnectionCheck) (h1 : params.update_init_block = true)
    (h2 : fetched = Option.none) :
    TonClient.new fetched env dirs pool_size params rs cb check =
      (.error (.internalError
        "Failed to update init_block: update it manually in network_config.json (https://docs.ton.org/develop/howto/network-configs)"),
       dirs) := by
  subst h2
  simp [TonClient.new, h1, patch_init_block]

/-- Witness for C4: a concrete construction with refresh requested and no
bootstrap answer fails with the guidance error and creates nothing. -/
theorem new_checkpoint_unavailable_witness :
    TonClient.new Option.none ⟨fun _ => false, fun _ => false⟩ [] 3
        ⟨⟨[], 0, "i"⟩, some "ks", true⟩ ⟨7, 2⟩ "cb" ConnectionCheck.none =
      (.error (.internalError
        "Failed to update init_block: update it manually in network_config.json (https://docs.ton.org/develop/howto/network-configs)"),
       []) :=
  new_checkpoint_unavailable Option.none ⟨fun _ => false, fun _ => false⟩
    [] 3 ⟨⟨[], 0, "i"⟩, some "ks", true⟩ ⟨7, 2⟩ "cb" ConnectionCheck.none
    rfl rfl

/-- C5 (failed establishment leaves the slot empty): for a slot whose
guarded field is empty, if the establishment procedure selected by its
ConnectionCheck mode fails, `get_connection` returns that error with the
slot returned unchanged — still empty, no partial handle or watcher stored —
so a later request may re-attempt establishment. -/
theorem get_connection_establish_failure (ops : ConnectOps)
    (slot : PoolConnection) (e : TonClientError)
    (h1 : slot.conn = Option.none)
    (h2 : establish_for ops slot.connection_check slot.params slot.callback =
      .error e) :
    slot.get_connection ops = (.error e, slot, []) ∧
    ((slot.get_connection ops).2.1).conn = Option.none := by
  have hmain : slot.get_connection ops = (.error e, slot, []) := by
    unfold PoolConnection.get_connection
    rw [h1, h2]
  exact ⟨hmain, by rw [hmain]; exact h1⟩

/-- Witness for C5: a health-checked slot whose establishment fails returns
the error and stays empty. -/
theorem get_connection_establish_failure_witness :
    PoolConnection.get_connection
        ⟨fun _ _ => .ok (⟨"t"⟩, ⟨false⟩),
         fun _ _ => .error (.internalError "unhealthy"),
         fun _ _ => .ok (⟨"t"⟩, ⟨false⟩)⟩
        ⟨⟨⟨[], 0, "i"⟩, Option.none, false⟩, "cb", Option.none,
          ConnectionCheck.health⟩ =
      (.error (.internalError "unhealthy"),
       ⟨⟨⟨[], 0, "i"⟩, Option.none, false⟩, "cb", Option.none,
         ConnectionCheck.health⟩, []) :=
  (get_connection_establish_failure
    ⟨fun _ _ => .ok (⟨"t"⟩, ⟨false⟩),
     fun _ _ => .error (.internalError "unhealthy"),
     fun _ _ => .ok (⟨"t"⟩, ⟨false⟩)⟩
    ⟨⟨⟨[], 0, "i"⟩, Option.none, false⟩, "cb", Option.none,
      ConnectionCheck.health⟩
    (.internalError "unhealthy") rfl rfl).1

/-- C6 (dead-connection reporting): for a slot holding a stored connection
whose liveness watcher reports termination, `get_connection` logs the
dead-connection warning and still returns the stored handle unchanged, with
the slot's stored state untouched and no error raised. -/
theorem get_connection_dead_reported (ops : ConnectOps)
    (slot : PoolConnection) (conn : TonConnection) (jh : JoinHandle)
    (h1 : slot.conn = some (conn, jh)) (h2 : jh.finished = true) :
    slot.get_connection ops =
      (.ok conn, slot, ["Returning dead connection: " ++ conn.tag]) := by
  unfold PoolConnection.get_connection
  rw [h1]
  simp [h2]

/-- Witness for C6: a slot with a finished watcher returns its stored handle
and logs the warning. -/
theorem get_connection_dead_reported_witness :
    PoolConnection.get_connection
        ⟨fun _ _ => .error (.internalError "x"),
         fun _ _ => .error (.internalError "x"),
         fun _ _ => .error (.internalError "x")⟩
        ⟨⟨⟨[], 0, "i"⟩, Option.none, false⟩, "cb", some (⟨"conn0"⟩, ⟨true⟩),
          ConnectionCheck.none⟩ =
      (.ok ⟨"conn0"⟩,
       ⟨⟨⟨[], 0, "i"⟩, Option.none, false⟩, "cb", some (⟨"conn0"⟩, ⟨true⟩),
         ConnectionCheck.none⟩,
       ["Returning dead connection: conn0"]) :=
  get_connection_dead_reported
    ⟨fun _ _ => .error (.internalError "x"),
     fun _ _ => .error (.internalError "x"),
     fun _ _ => .error (.internalError "x")⟩
    ⟨⟨⟨[], 0, "i"⟩, Option.none, false⟩, "cb", some (⟨"conn0"⟩, ⟨true⟩),
      ConnectionCheck.none⟩
    ⟨"conn0"⟩ ⟨true⟩ rfl rfl

/-- C7 (keystore isolation): on successful construction with a configured
keystore root `R`, slot `i`'s params point at the keystore path `R/i` for
every `i < pool_size`, any two distinct slot indices yield distinct paths,
and every pre-existing directory survives construction; directory creation
is idempotent — a pre-existing directory is reused unchanged, not cleared;
and with no configured root, construction creates no directory and every
slot's params keep the absent keystore path. -/
theorem keystore_isolation :
    (∀ (fetched : Option BlockIdExt) (env : FsEnv) (dirs : List String)
        (n : Nat) (params : TonConnectionParams) (rs : RetryStrategy)
        (cb : String) (check : ConnectionCheck) (c : TonClient)
        (dirs2 : List String) (R : String),
      TonClient.new fetched env dirs n params rs cb check = (.ok c, dirs2) →
      params.keystore_dir = some R →
      c.connections.length = n ∧
      (∀ i, i < n → ∃ slot, c.connections[i]? = some slot ∧
        slot.params.keystore_dir = some (path_join R (nat_to_string i))) ∧
      (∀ i j : Nat, i ≠ j →
        path_join R (nat_to_string i) ≠ path_join R (nat_to_string j)) ∧
      (∀ d ∈ dirs, d ∈ dirs2)) ∧
    (∀ (env : FsEnv) (dirs : List String) (p : String),
      env.createFails p = false → p ∈ dirs →
      create_dir_all env dirs p = (.ok (), dirs)) ∧
    (∀ (fetched : Option BlockIdExt) (env : FsEnv) (dirs : List String)
        (n : Nat) (params : TonConnectionParams) (rs : RetryStrategy)
        (cb : String) (check : ConnectionCheck) (c : TonClient)
        (dirs2 : List String),
      TonClient.new fetched env dirs n params rs cb check = (.ok c, dirs2) →
      params.keystore_dir = Option.none →
      dirs2 = dirs ∧
      ∀ slot ∈ c.connections, slot.params.keystore_dir = Option.none) := by
  refine ⟨?_, ?_, ?_⟩
  · intro fetched env dirs n params rs cb check c dirs2 R hnew hroot
    unfold TonClient.new at hnew
    simp only at hnew
    obtain ⟨pres, hpres⟩ :
        ∃ pres, (if params.update_init_block then
          patch_init_block fetched params else .ok params) = pres := ⟨_, rfl⟩
    rw [hpres] at hnew
    cases pres with
    | error e => simp at hnew
    | ok patched =>
      simp only at hnew
      rcases hbs : build_slots env patched cb check (List.range n) dirs with
        ⟨bres, dirsB⟩
      rw [hbs] at hnew
      cases bres with
      | error e => simp at hnew
      | ok slots =>
        simp only [Prod.mk.injEq, Except.ok.injEq] at hnew
        obtain ⟨hc, hd⟩ := hnew
        subst hd
        have hroot2 : patched.keystore_dir = some R := by
          rw [patched_params_keystore fetched params patched hpres, hroot]
        rw [List.range_eq_range'] at hbs
        obtain ⟨hlen, hidx⟩ := build_slots_ok_some_root env patched cb check
          R hroot2 n 0 dirs slots dirsB hbs
        refine ⟨?_, ?_, ?_, ?_⟩
        · rw [← hc]
          exact hlen
        · intro i hi
          have h := hidx i hi
          rw [Nat.zero_add] at h
          rw [← hc]
          exact ⟨_, h, rfl⟩
        · intro i j hij
          exact slot_paths_disjoint R hij
        · have hsub := build_slots_sub env patched cb check
            (List.range' 0 n) dirs
          rw [hbs] at hsub
          exact fun d hd => hsub hd
  · intro env dirs p h1 h2
    simp [create_dir_all, h1, h2]
  · intro fetched env dirs n params rs cb check c dirs2 hnew hroot
    unfold TonClient.new at hnew
    simp only at hnew
    obtain ⟨pres, hpres⟩ :
        ∃ pres, (if params.update_init_block then
          patch_init_block fetched params else .ok params) = pres := ⟨_, rfl⟩
    rw [hpres] at hnew
    cases pres with
    | error e => simp at hnew
    | ok patched =>
      simp only at hnew
      rcases hbs : build_slots env patched cb check (List.range n) dirs with
        ⟨bres, dirsB⟩
      rw [hbs] at hnew
      have hroot2 : patched.keystore_dir = Option.none := by
        rw [patched_params_keystore fetched params patched hpres, hroot]
      have hno := build_slots_ok_no_root env patched cb check hroot2
        (List.range n) dirs
      rw [hno] at hbs
      simp only [Prod.mk.injEq, Except.ok.injEq] at hbs
      obtain ⟨hslots, hdirs⟩ := hbs
      subst hdirs
      rw [← hslots] at hnew
      simp only [Prod.mk.injEq, Except.ok.injEq] at hnew
      obtain ⟨hc, hd⟩ := hnew
      refine ⟨hd.symm, ?_⟩
      intro slot hslot
      rw [← hc] at hslot
      simp only [List.mem_map] at hslot
      obtain ⟨x, _, hx⟩ := hslot
      rw [← hx]
      exact hroot2

/-- Witness for C7: constructing a pool of 2 slots over root "ks" on an
empty filesystem succeeds with slot paths "ks/0" and "ks/1"; the instantiated
isolation facts follow by applying the theorem to that concrete run. -/
theorem keystore_isolation_witness :
    ({ retry_strategy := ⟨7, 2⟩,
       connections :=
        [⟨⟨⟨[], 0, "i"⟩, some "ks/0", false⟩, "cb", Option.none,
           ConnectionCheck.none⟩,
         ⟨⟨⟨[], 0, "i"⟩, some "ks/1", false⟩, "cb", Option.none,
           ConnectionCheck.none⟩] } : TonClient).connections.length = 2 ∧
    (∀ i, i < 2 → ∃ slot,
      ({ retry_strategy := ⟨7, 2⟩,
         connections :=
          [⟨⟨⟨[], 0, "i"⟩, some "ks/0", false⟩, "cb", Option.none,
             ConnectionCheck.none⟩,
           ⟨⟨⟨[], 0, "i"⟩, some "ks/1", false⟩, "cb", Option.none,
             ConnectionCheck.none⟩] } : TonClient).connections[i]? =
          some slot ∧
        slot.params.keystore_dir = some (path_join "ks" (nat_to_string i))) ∧
    (∀ i j : Nat, i ≠ j →
      path_join "ks" (nat_to_string i) ≠ path_join "ks" (nat_to_string j)) ∧
    (∀ d ∈ ([] : List String), d ∈ ["ks/0", "ks/1"]) :=
  keystore_isolation.1 Option.none ⟨fun _ => false, fun _ => false⟩ [] 2
    ⟨⟨[], 0, "i"⟩, some "ks", false⟩ ⟨7, 2⟩ "cb" ConnectionCheck.none
    _ ["ks/0", "ks/1"] "ks" rfl rfl

/-- C8 (selection in bounds): whenever the pool is non-empty, the random
slot selection used by `get_connection` and `do_invoke` draws the in-range
index `rng % slot_count`, `random_item` returns exactly the slot stored at
that index, and neither pool-level operation hits the empty-range panic. -/
theorem random_selection_in_bounds (c : TonClient) (rng : Nat)
    (ops : ConnectOps)
    (dispatch : TonConnection → Except TonClientError TonResult)
    (h : 0 < c.connections.length) :
    gen_range rng c.connections.length =
      some (rng % c.connections.length) ∧
    rng % c.connections.length < c.connections.length ∧
    c.random_item rng = c.connections[rng % c.connections.length]? ∧
    (c.random_item rng).isSome = true ∧
    (c.get_connection rng ops).isSome = true ∧
    (c.do_invoke rng ops dispatch).isSome = true := by
  have hne : c.connections.length ≠ 0 := Nat.pos_iff_ne_zero.mp h
  have hmod : rng % c.connections.length < c.connections.length :=
    Nat.mod_lt rng h
  have hgen : gen_range rng c.connections.length =
      some (rng % c.connections.length) := by
    simp [gen_range, hne]
  have hget : c.connections[rng % c.connections.length]? =
      some (c.connections[rng % c.connections.length]) :=
    List.getElem?_eq_getElem hmod
  have hitem : c.random_item rng =
      some (c.connections[rng % c.connections.length]) := by
    simp [TonClient.random_item, hgen, hget]
  refine ⟨hgen, hmod, by rw [hitem, hget], by rw [hitem]; rfl, ?_, ?_⟩
  · simp [TonClient.get_connection, hitem]
  · simp [TonClient.do_invoke, hitem]

/-- Witness for C8: a two-slot pool with draw 5 selects index 1 and both
pool operations return a value rather than panicking. -/
theorem random_selection_in_bounds_witness :
    gen_range 5 2 = some 1 ∧ 1 < 2 ∧
    TonClient.random_item clientW8 5 = clientW8.connections[1]? ∧
    (TonClient.random_item clientW8 5).isSome = true ∧
    (TonClient.get_connection clientW8 5 opsW8).isSome = true ∧
    (TonClient.do_invoke clientW8 5 opsW8
      (fun _ => .ok ⟨"r"⟩)).isSome = true :=
  random_selection_in_bounds clientW8 5 opsW8 (fun _ => .ok ⟨"r"⟩)
    (by decide)

/-- C9 (no positivity check on pool_size): with checkpoint refresh disabled,
`TonClient::new` with `pool_size = 0` succeeds, returning a pool whose slot
sequence is empty and touching no filesystem state; any subsequent
`random_item`, `get_connection` or `do_invoke` on that pool hits the
empty-range sampling panic (modelled as `none`) instead of returning an
error. -/
theorem pool_size_zero_panics (fetched : Option BlockIdExt) (env : FsEnv)
    (dirs : List String) (params : TonConnectionParams) (rs : RetryStrategy)
    (cb : String) (check : ConnectionCheck) (rng : Nat) (ops : ConnectOps)
    (dispatch : TonConnection → Except TonClientError TonResult)
    (h : params.update_init_block = false) :
    TonClient.new fetched env dirs 0 params rs cb check =
      (.ok { retry_strategy := rs, connections := [] }, dirs) ∧
    TonClient.random_item { retry_strategy := rs, connections := [] } rng =
      Option.none ∧
    TonClient.get_connection { retry_strategy := rs, connections := [] }
      rng ops = Option.none ∧
    TonClient.do_invoke { retry_strategy := rs, connections := [] }
      rng ops dispatch = Option.none := by
  refine ⟨?_, ?_, ?_, ?_⟩
  · simp [TonClient.new, h, List.range_zero, build_slots]
  · simp [TonClient.random_item, gen_range]
  · simp [TonClient.get_connection, TonClient.random_item, gen_range]
  · simp [TonClient.do_invoke, TonClient.random_item, gen_range]

/-- Witness for C9: a concrete zero-slot construction succeeds and every
pool operation on it hits the sampling panic. -/
theorem pool_size_zero_panics_witness :
    TonClient.new Option.none ⟨fun _ => false, fun _ => false⟩ [] 0
        ⟨⟨[], 0, "i"⟩, some "ks", false⟩ ⟨7, 2⟩ "cb" ConnectionCheck.none =
      (.ok { retry_strategy := ⟨7, 2⟩, connections := [] }, []) ∧
    TonClient.random_item
      { retry_strategy := ⟨7, 2⟩, connections := [] } 5 = Option.none ∧
    TonClient.get_connection
      { retry_strategy := ⟨7, 2⟩, connections := [] } 5 opsW8 =
      Option.none ∧
    TonClient.do_invoke { retry_strategy := ⟨7, 2⟩, connections := [] } 5
      opsW8 (fun _ => .ok ⟨"r"⟩) = Option.none :=
  pool_size_zero_panics Option.none ⟨fun _ => false, fun _ => false⟩ []
    ⟨⟨[], 0, "i"⟩, some "ks", false⟩ ⟨7, 2⟩ "cb" ConnectionCheck.none 5
    opsW8 (fun _ => .ok ⟨"r"⟩) rfl

/-- C10 (construction not atomic on disk): with a configured keystore root,
if the per-slot directory step fails at slot `i` — creation fails, or the
path cannot be encoded — while slots before `i` succeeded, `TonClient::new`
returns an error (no pool), yet the directories of slots `0..i-1` created
earlier remain in the filesystem state. -/
theorem construction_not_atomic (fetched : Option BlockIdExt) (env : FsEnv)
    (dirs : List String) (n i : Nat) (R : String)
    (params : TonConnectionParams) (rs : RetryStrategy) (cb : String)
    (check : ConnectionCheck)
    (hroot : params.keystore_dir = some R)
    (hupd : params.update_init_block = false)
    (hin : i < n)
    (hok : ∀ j, j < i →
      env.createFails (path_join R (nat_to_string j)) = false ∧
      env.encodeFails (path_join R (nat_to_string j)) = false)
    (hfail : env.createFails (path_join R (nat_to_string i)) = true ∨
      (env.createFails (path_join R (nat_to_string i)) = false ∧
       env.encodeFails (path_join R (nat_to_string i)) = true)) :
    ∃ e dirs2,
      TonClient.new fetched env dirs n params rs cb check =
        (.error e, dirs2) ∧
      ∀ j, j < i → path_join R (nat_to_string j) ∈ dirs2 := by
  obtain ⟨e, dirs2, heq, hmem⟩ := build_slots_fail_at env params cb check R
    hroot i n 0 dirs hin
    (fun j hj => by simpa using hok j hj)
    (by simpa using hfail)
  refine ⟨e, dirs2, ?_, fun j hj => by simpa using hmem j hj⟩
  unfold TonClient.new
  simp only [hupd, Bool.false_eq_true, if_false]
  rw [List.range_eq_range', heq]

/-- Witness for C10: three slots over root "ks" where creating "ks/1" fails;
construction errors out while "ks/0" remains on disk. -/
theorem construction_not_atomic_witness :
    ∃ e dirs2,
      TonClient.new Option.none
          ⟨fun p => p == "ks/1", fun _ => false⟩ [] 3
          ⟨⟨[], 0, "i"⟩, some "ks", false⟩ ⟨7, 2⟩ "cb"
          ConnectionCheck.none =
        (.error e, dirs2) ∧
      ∀ j, j < 1 → path_join "ks" (nat_to_string j) ∈ dirs2 :=
  construction_not_atomic Option.none ⟨fun p => p == "ks/1", fun _ => false⟩
    [] 3 1 "ks" ⟨⟨[], 0, "i"⟩, some "ks", false⟩ ⟨7, 2⟩ "cb"
    ConnectionCheck.none rfl rfl (by omega)
    (fun j hj => by
      interval_cases j
      exact ⟨by decide, rfl⟩)
    (Or.inl (by decide))
